import Mathlib

/-!
Shallow embedding of the tool-augmented completion orchestrator in
`src/agentd/patch.py` (the module patched over the OpenAI SDK).

Conventions of the embedding:
* Python dictionaries holding tool schemas become the `SchemaDict` structure
  (a dict that may carry top-level `name`/`description`/`parameters`/
  `params_json_schema` keys and optionally a nested `function` sub-dict).
* Python exceptions become the `Except PyError` monad; an uncaught exception
  is an `Except.error` value that propagates through `bind`.
* `asyncio.gather` over a list of dispatch coroutines becomes `gatherExcept`:
  results come back in task order (asyncio's guarantee); an exception in any
  member propagates.
* Python object references to mutable lists become indices (`Ref`) into a
  store (`List (List α)`); `list.copy()` allocates a fresh cell, `extend`
  mutates a cell in place.
* A model / backend is an oracle function taking the index of the call being
  issued and the request payload that the code sends.
* `str(x)` applied to an optional content value is `pyStr` (Python renders
  `None` as the string "None"); string values stand for the `str()` image of
  whatever Python object sits there.
-/

namespace Agentd

/-- Tool-call arguments after JSON parsing: a key/value mapping. -/
abbrev Args := List (String × String)

/-- Python `dict.get` over an association list (first binding wins). -/
def assocFind (k : String) : List (String × α) → Option α
  | [] => none
  | p :: rest => if p.1 = k then some p.2 else assocFind k rest

/-- Errors a dispatch can raise (modelling the Python exceptions of
`_process_tool_call` / `_execute_tool`). -/
inductive PyError where
  /-- Raised by `_process_tool_call`: `raise KeyError(f"Tool ... not registered")`. -/
  | keyErrorNotRegistered (name : String)
  /-- Raised in `_execute_tool`: `FUNCTION_REGISTRY.get(fn_name)` returned `None` and
  the code calls it anyway: `TypeError` (NoneType object is not callable). -/
  | typeErrorNoneNotCallable (name : String)
  /-- An exception raised by `server.call_tool` that no handler caught. -/
  | remoteCallError (name : String) (msg : String)
deriving DecidableEq

/-- The structured reply of `server.call_tool(...)`, after `result.dict()`:
it may or may not carry a `content` entry; `whole` stands for the `str()`
image of the full reply dict (used only to compare against the fallback the
spec describes). -/
structure Reply where
  content : Option String
  whole : String
deriving DecidableEq

/-- An MCP tool-server handle: `name`, a connected flag (set by `connect()`),
the tool listing, and the remote call (which may raise, i.e. return
`Except.error`). -/
structure Server where
  name : String
  connected : Bool
  tools : List String
  callToolFn : String → Args → Except String Reply

/-- Effect of `server.connect()`: establishes the session (modelled as setting the
connected flag). -/
def Server.connectOp (s : Server) : Server :=
  { s with connected := true }

/-- Embedding of `_ensure_connected(server, server_cache)` from patch.py.  The third
component counts how many times the underlying `connect()` ran (0 or 1). -/
def ensureConnected (server : Server) (cache : List (String × Server)) :
    List (String × Server) × Server × Nat :=
  match assocFind server.name cache with
  | some cached => (cache, cached, 0)
  | none =>
      ((server.name, server.connectOp) :: cache, server.connectOp, 1)

/-- Repeatedly call `_ensure_connected` with the same server handle,
accumulating the total number of underlying `connect()` invocations. -/
def ensureConnectedIter (server : Server) :
    Nat → List (String × Server) → List (String × Server) × Nat
  | 0, cache => (cache, 0)
  | n + 1, cache =>
      let step := ensureConnected server cache
      let rest := ensureConnectedIter server n step.1
      (rest.1, step.2.2 + rest.2)

/-- Python `str(output)` where `output` is the optional `content` of a reply:
Python renders `None` as "None". -/
def pyStr : Option String → String
  | some s => s
  | none => "None"

/-- The name → connected-server map the driver builds from `list_tools()`. -/
abbrev ServerLookup := List (String × Server)

/-- The `FUNCTION_REGISTRY` map: name → local `@tool` callable. -/
abbrev Registry := List (String × (Args → String))

/-- A tool call emitted by the model inside a chat completion response
(`call.id`, `call.function.name`, parsed `call.function.arguments`). -/
structure ToolCall where
  id : Option String
  name : String
  arguments : Args
deriving DecidableEq

/-- Chat messages as patch.py builds them: the assistant entry replaying the
tool call, the tool-result entry, and opaque pre-existing entries. -/
inductive Msg where
  | user (content : String)
  | assistantToolCalls (toolCalls : List ToolCall)
  | toolResult (name : String) (content : String) (toolCallId : Option String)
deriving DecidableEq

/-- Embedding of `_process_tool_call(call, fn_name, fn_args, server_lookup, provider,
is_responses=False)` — the Chat Loop dispatch path.  A remote failure is
caught and becomes an error-tagged string; an unregistered local tool raises
`KeyError`. -/
def processToolCall (call : ToolCall) (fnName : String) (fnArgs : Args)
    (serverLookup : ServerLookup) (registry : Registry) :
    Except PyError (List Msg) :=
  match assocFind fnName serverLookup with
  | some server =>
      let output : String :=
        match server.callToolFn fnName fnArgs with
        | .ok result => pyStr result.content
        | .error e => "Error calling MCP tool " ++ fnName ++ ": " ++ e
      .ok [.assistantToolCalls [call], .toolResult fnName output call.id]
  | none =>
      match assocFind fnName registry with
      | some fn =>
          .ok [.assistantToolCalls [call],
               .toolResult fnName (fn fnArgs) call.id]
      | none => .error (.keyErrorNotRegistered fnName)

/-- Embedding of `_execute_tool(fn_name, fn_args, server_lookup)` — the Responses dispatch
path.  Note: the source has no try/except here, so a remote failure
propagates; an unregistered name makes the code call `None`. -/
def executeTool (fnName : String) (fnArgs : Args)
    (serverLookup : ServerLookup) (registry : Registry) :
    Except PyError (Option String) :=
  match assocFind fnName serverLookup with
  | some server =>
      match server.callToolFn fnName fnArgs with
      | .ok res => .ok res.content
      | .error e => .error (.remoteCallError fnName e)
  | none =>
      match assocFind fnName registry with
      | some fn => .ok (some (fn fnArgs))
      | none => .error (.typeErrorNoneNotCallable fnName)

/-- Model of `asyncio.gather` over dispatch coroutines: results in task order; a
raised exception propagates out of the round. -/
def gatherExcept (f : α → Except PyError β) : List α → Except PyError (List β)
  | [] => .ok []
  | x :: xs =>
      match f x with
      | .error e => .error e
      | .ok y =>
          match gatherExcept f xs with
          | .error e => .error e
          | .ok ys => .ok (y :: ys)

/-- The nested sub-dict that may sit under a schema's `function` key. -/
structure FnDict where
  name : Option String
  description : Option String
  parameters : Option String
  paramsJsonSchema : Option String
deriving DecidableEq

/-- A tool-schema dict as patch.py receives it: top-level keys plus an
optional nested `function` sub-dict.  `none` models an absent key; string
values stand for the `str()` image of whatever (truthy) object sits there. -/
structure SchemaDict where
  name : Option String
  description : Option String
  parameters : Option String
  paramsJsonSchema : Option String
  function : Option FnDict
deriving DecidableEq

/-- The flat shape `_normalize_schema` produces. -/
structure FlatSchema where
  name : Option String
  description : Option String
  parameters : Option String
deriving DecidableEq

/-- Python `a or b` over two optional values (the values modelled are truthy
when present). -/
def firstTruthy (p q : Option String) : Option String :=
  match p with
  | some v => some v
  | none => q

/-- Embedding of `_normalize_schema(schema)` from patch.py: if the dict has a `function`
key use the nested fields, else the top-level fields; `parameters` falls back
to `params_json_schema`. -/
def normalizeSchema (s : SchemaDict) : FlatSchema :=
  match s.function with
  | some fn => ⟨fn.name, fn.description, firstTruthy fn.parameters fn.paramsJsonSchema⟩
  | none => ⟨s.name, s.description, firstTruthy s.parameters s.paramsJsonSchema⟩

/-- The dedup loop of `_handle_llm_call` step 1: walk `combined`, keep the
first schema per truthy normalized name (`deduped` is an insertion-ordered
dict; `seen` are its keys so far).  Output pairs (name, original schema). -/
def dedupeGo (seen : List String) : List SchemaDict → List (String × SchemaDict)
  | [] => []
  | s :: rest =>
      match (normalizeSchema s).name with
      | none => dedupeGo seen rest
      | some n =>
          if n = "" ∨ n ∈ seen then dedupeGo seen rest
          else (n, s) :: dedupeGo (n :: seen) rest

/-- The `deduped` dict as built by patch.py over the concatenation
`explicit + mcp_schemas + decorator`. -/
def dedupeSchemas (combined : List SchemaDict) : List (String × SchemaDict) :=
  dedupeGo [] combined

/-- Step 2 of `_handle_llm_call`: the merged tool list shipped to the model
(each entry re-normalized; the `type: function` wrapper carries no data). -/
def finalToolsOf (combined : List SchemaDict) : List FlatSchema :=
  (dedupeSchemas combined).map (fun p => normalizeSchema p.2)

/-- First element of a schema list whose normalized name is `n`. -/
def firstWithName (n : String) (l : List SchemaDict) : Option SchemaDict :=
  l.find? (fun s => (normalizeSchema s).name == some n)

/-! ### Mutable Python lists as a store of cells -/

/-- A reference to a mutable Python list. -/
abbrev Ref := Nat

/-- Read the list a reference points at. -/
def getRef (σ : List (List α)) (r : Ref) : List α := σ[r]?.getD []

/-- Overwrite the cell a reference points at. -/
def setRef (σ : List (List α)) (r : Ref) (v : List α) : List (List α) := σ.set r v

/-- Python `list.extend(xs)`: in-place append to the referenced list. -/
def extendRef (σ : List (List α)) (r : Ref) (xs : List α) : List (List α) :=
  setRef σ r (getRef σ r ++ xs)

/-- Python `list.copy()` (and fresh list literals): allocate a new cell. -/
def allocRef (σ : List (List α)) (v : List α) : List (List α) × Ref :=
  (σ ++ [v], σ.length)

/-! ### Chat Loop Driver -/

/-- A chat completion response as the loop reads it:
`resp.choices[0].message.tool_calls` plus an identity for the rest. -/
structure ChatResp where
  rid : Nat
  toolCalls : List ToolCall
deriving DecidableEq

/-- What the Chat Loop Driver hands back on normal return: the last response,
whether the max-tool-loops warning was logged, and how many model calls the
loop issued. -/
structure ChatOutcome where
  resp : ChatResp
  warned : Bool
  numCalls : Nat
deriving DecidableEq

/-- The `explicit_names` set the loop builds from `s.get` applied to each
caller-supplied declaration dict: the raw top-level `name` values
(nested-shape declarations contribute `none` here, not their inner name). -/
def explicitNames (explicit : List SchemaDict) : List (Option String) :=
  explicit.map (fun s => s.name)

/-- The per-call guard inside the loop: some requested name is in
`explicit_names`, not in `server_lookup` and not in `SCHEMA_REGISTRY`.
The source checks this call by call before appending dispatch coroutines and
returns on the first hit; since an unawaited coroutine never runs, this is
equivalent to testing the whole batch first. -/
def guardHit (explicit : List SchemaDict) (serverLookup : ServerLookup)
    (schemaRegistry : List (String × SchemaDict)) (calls : List ToolCall) : Bool :=
  calls.any (fun call =>
    (explicitNames explicit).contains (some call.name)
    && (assocFind call.name serverLookup).isNone
    && (assocFind call.name schemaRegistry).isNone)

/-- The `MAX_TOOL_LOOPS` constant from patch.py. -/
def MAX_TOOL_LOOPS : Nat := 20

/-- The `while True` loop of the Chat Completions branch of
`_handle_llm_call`.  `fuel = MAX_TOOL_LOOPS - loop_count` where `loop_count`
is the (already incremented) counter of the current iteration, and `idx` is
the 0-based index of the model call this iteration issues; the entry point
starts at `fuel = MAX_TOOL_LOOPS - 1`, `idx = 0`.  `r` is the reference to
`current_messages` (aliasing the caller's `messages` list). -/
def chatLoopGo (model : Nat → List Msg → ChatResp)
    (explicit : List SchemaDict) (serverLookup : ServerLookup)
    (schemaRegistry : List (String × SchemaDict)) (registry : Registry) :
    Nat → Nat → Ref → List (List Msg) → Except PyError (ChatOutcome × List (List Msg))
  | 0, idx, r, σ =>
      -- loop_count has reached MAX_TOOL_LOOPS: warn and return this response
      .ok (⟨model idx (getRef σ r), true, idx + 1⟩, σ)
  | fuel + 1, idx, r, σ =>
      let resp := model idx (getRef σ r)
      if resp.toolCalls.isEmpty then
        .ok (⟨resp, false, idx + 1⟩, σ)
      else if guardHit explicit serverLookup schemaRegistry resp.toolCalls then
        .ok (⟨resp, false, idx + 1⟩, σ)
      else
        match gatherExcept
            (fun call => processToolCall call call.name call.arguments serverLookup registry)
            resp.toolCalls with
        | .error e => .error e
        | .ok parts =>
            chatLoopGo model explicit serverLookup schemaRegistry registry
              fuel (idx + 1) r (extendRef σ r parts.flatten)

/-- The Chat Completions branch of `_handle_llm_call`:
`current_messages = payload` (the caller's own list, by reference). -/
def chatDriver (model : Nat → List Msg → ChatResp)
    (explicit : List SchemaDict) (serverLookup : ServerLookup)
    (schemaRegistry : List (String × SchemaDict)) (registry : Registry)
    (payloadRef : Ref) (σ : List (List Msg)) :
    Except PyError (ChatOutcome × List (List Msg)) :=
  chatLoopGo model explicit serverLookup schemaRegistry registry
    (MAX_TOOL_LOOPS - 1) 0 payloadRef σ

/-! ### Response Follow-up Driver -/

/-- An output item of a Responses API response (the loop keeps those whose
`type` is "function_call"): name, parsed arguments, `call_id`. -/
structure OutputItem where
  type : String
  name : String
  arguments : Args
  callId : String
deriving DecidableEq

/-- A Responses API response: its id (`resp.id`) and its output items. -/
structure RResp where
  rid : String
  output : List OutputItem
deriving DecidableEq

/-- Entries of the Responses input history: opaque caller-supplied entries
and the function_call_output dicts the driver appends. -/
inductive RItem where
  | item (tag : String)
  | functionCallOutput (callId : String) (output : String)
deriving DecidableEq

/-- The output string placed in a function_call_output entry:
`json.dumps(result) if not isinstance(result, str) else result`; a `None`
result serializes to "null". -/
def dumpResult : Option String → String
  | some s => s
  | none => "null"

/-- What the Response Follow-up Driver hands back: the returned response and
the number of backend calls it issued. -/
structure RespOutcome where
  resp : RResp
  numBackendCalls : Nat
deriving DecidableEq

/-- The Responses branch of `_handle_llm_call`.  The backend oracle takes the
index of the call (0 = initial, 1 = follow-up), the input history sent, and
the `previous_response_id` argument.  `payloadRef` is the caller's input
list; `input_history = payload.copy()` allocates a fresh cell, and
`follow_input = input_history` aliases it, so appends never touch the
caller's list. -/
def responsesDriver (backend : Nat → List RItem → Option String → RResp)
    (serverLookup : ServerLookup) (registry : Registry)
    (payloadRef : Ref) (σ : List (List RItem)) :
    Except PyError (RespOutcome × List (List RItem)) :=
  match allocRef σ (getRef σ payloadRef) with
  | (σ1, histRef) =>
      let resp := backend 0 (getRef σ1 histRef) none
      let calls := resp.output.filter (fun o => o.type == "function_call")
      if calls.isEmpty then
        .ok (⟨resp, 1⟩, σ1)
      else
        match gatherExcept
            (fun call => executeTool call.name call.arguments serverLookup registry)
            calls with
        | .error e => .error e
        | .ok results =>
            let outputs := (calls.zip results).map
              (fun cr => RItem.functionCallOutput cr.1.callId (dumpResult cr.2))
            let σ2 := extendRef σ1 histRef outputs
            let follow := backend 1 (getRef σ2 histRef) (some resp.rid)
            .ok (⟨follow, 2⟩, σ2)

/-- Output rendered by the Tool Dispatcher as the SPEC words it (refinement
comparison only).  Modelled from the spec: "on success, extract a `content`
field from the structured reply (falling back to the whole structured reply
if absent)". -/
def specToolOutput (r : Reply) : String :=
  match r.content with
  | some c => c
  | none => r.whole

/-! ### Lemmas: Server Connection Cache -/

lemma ensureConnected_of_cached (server : Server) (cache : List (String × Server))
    (c : Server) (h : assocFind server.name cache = some c) :
    ensureConnected server cache = (cache, c, 0) := by
  unfold ensureConnected
  rw [h]

lemma ensureConnectedIter_of_cached (server : Server) (c : Server) :
    ∀ (n : Nat) (cache : List (String × Server)),
      assocFind server.name cache = some c →
      ensureConnectedIter server n cache = (cache, 0) := by
  intro n
  induction n with
  | zero => intro cache _; rfl
  | succ m ih =>
      intro cache h
      unfold ensureConnectedIter
      rw [ensureConnected_of_cached server cache c h]
      simp only
      rw [ih cache h]
      simp

lemma assocFind_ensureConnected_self (server : Server) (cache : List (String × Server)) :
    assocFind server.name (ensureConnected server cache).1 =
      some (ensureConnected server cache).2.1 := by
  unfold ensureConnected
  cases h : assocFind server.name cache with
  | some c => simpa using h
  | none => simp [assocFind]

lemma ensureConnectedIter_connects_le_one (server : Server) :
    ∀ (n : Nat) (cache : List (String × Server)),
      (ensureConnectedIter server n cache).2 ≤ 1 := by
  intro n cache
  cases n with
  | zero => simp [ensureConnectedIter]
  | succ m =>
      unfold ensureConnectedIter
      cases h : assocFind server.name cache with
      | some c =>
          rw [ensureConnected_of_cached server cache c h]
          simp only
          rw [ensureConnectedIter_of_cached server c m cache h]
          simp
      | none =>
          have hstep : ensureConnected server cache =
              ((server.name, server.connectOp) :: cache, server.connectOp, 1) := by
            unfold ensureConnected; rw [h]
          rw [hstep]
          simp only
          have hmem : assocFind server.name ((server.name, server.connectOp) :: cache) =
              some server.connectOp := by simp [assocFind]
          rw [ensureConnectedIter_of_cached server server.connectOp m _ hmem]
          simp

lemma ensureConnectedIter_fresh (server : Server) (n : Nat)
    (cache : List (String × Server)) (h : assocFind server.name cache = none) :
    assocFind server.name (ensureConnectedIter server (n + 1) cache).1 =
      some server.connectOp := by
  unfold ensureConnectedIter
  have hstep : ensureConnected server cache =
      ((server.name, server.connectOp) :: cache, server.connectOp, 1) := by
    unfold ensureConnected; rw [h]
  rw [hstep]
  simp only
  have hmem : assocFind server.name ((server.name, server.connectOp) :: cache) =
      some server.connectOp := by simp [assocFind]
  rw [ensureConnectedIter_of_cached server server.connectOp n _ hmem]
  exact hmem

/-- C5: the connect-if-absent operation is idempotent: a cached name is
returned as-is with no connect action; any number of repeated calls with the
same server performs the underlying `connect()` at most once; starting from a
cache without the name, at least one call leaves the cache mapping the name
to the connected handle. -/
theorem C5_ensure_connected_idempotent :
    (∀ (server : Server) (cache : List (String × Server)) (c : Server),
      assocFind server.name cache = some c →
      ensureConnected server cache = (cache, c, 0)) ∧
    (∀ (server : Server) (n : Nat) (cache : List (String × Server)),
      (ensureConnectedIter server n cache).2 ≤ 1) ∧
    (∀ (server : Server) (n : Nat) (cache : List (String × Server)),
      assocFind server.name cache = none →
      assocFind server.name (ensureConnectedIter server (n + 1) cache).1 =
        some server.connectOp) := by
  refine ⟨?_, ?_, ?_⟩
  · intro server cache c h
    exact ensureConnected_of_cached server cache c h
  · intro server n cache
    exact ensureConnectedIter_connects_le_one server n cache
  · intro server n cache h
    exact ensureConnectedIter_fresh server n cache h

/-- A concrete tool server used by witnesses: one tool "t" that succeeds. -/
def demoServer : Server :=
  { name := "srv", connected := false, tools := ["t"],
    callToolFn := fun _ _ => .ok { content := some "ok", whole := "reply" } }

/-- Witness for C5 at a concrete server and caches. -/
theorem C5_ensure_connected_idempotent_witness :
    ensureConnected demoServer [("srv", demoServer.connectOp)] =
      ([("srv", demoServer.connectOp)], demoServer.connectOp, 0) ∧
    (ensureConnectedIter demoServer 3 []).2 ≤ 1 ∧
    assocFind demoServer.name (ensureConnectedIter demoServer 3 []).1 =
      some demoServer.connectOp :=
  ⟨C5_ensure_connected_idempotent.1 demoServer [("srv", demoServer.connectOp)]
      demoServer.connectOp rfl,
   C5_ensure_connected_idempotent.2.1 demoServer 3 [],
   C5_ensure_connected_idempotent.2.2 demoServer 2 [] rfl⟩

/-! ### Lemmas: Schema Merger -/

lemma dedupeGo_keys (l : List SchemaDict) :
    ∀ seen : List String,
      ((dedupeGo seen l).map Prod.fst).Nodup ∧
      ∀ n ∈ (dedupeGo seen l).map Prod.fst, n ∉ seen := by
  induction l with
  | nil => intro seen; simp [dedupeGo]
  | cons s rest ih =>
      intro seen
      unfold dedupeGo
      cases hn : (normalizeSchema s).name with
      | none => exact ih seen
      | some n =>
          by_cases hc : n = "" ∨ n ∈ seen
          · simp only [if_pos hc]
            exact ih seen
          · simp only [if_neg hc]
            push_neg at hc
            obtain ⟨ihn, ihs⟩ := ih (n :: seen)
            refine ⟨?_, ?_⟩
            · simp only [List.map_cons, List.nodup_cons]
              refine ⟨?_, ihn⟩
              intro hmem
              exact (ihs n hmem) (List.mem_cons_self n seen)
            · intro m hm
              simp only [List.map_cons, List.mem_cons] at hm
              cases hm with
              | inl h => exact h ▸ hc.2
              | inr h =>
                  intro hms
                  exact (ihs m h) (List.mem_cons_of_mem n hms)

lemma dedupeGo_mem (l : List SchemaDict) :
    ∀ (seen : List String) (n : String) (s : SchemaDict),
      (n, s) ∈ dedupeGo seen l →
      n ∉ seen ∧ n ≠ "" ∧ (normalizeSchema s).name = some n ∧
        firstWithName n l = some s := by
  induction l with
  | nil => intro seen n s h; simp [dedupeGo] at h
  | cons t rest ih =>
      intro seen n s h
      unfold dedupeGo at h
      cases hm : (normalizeSchema t).name with
      | none =>
          rw [hm] at h
          obtain ⟨h1, h2, h3, h4⟩ := ih seen n s h
          refine ⟨h1, h2, h3, ?_⟩
          unfold firstWithName at h4 ⊢
          simp [List.find?_cons, hm, h4]
      | some m =>
          rw [hm] at h
          dsimp only at h
          by_cases hc : m = "" ∨ m ∈ seen
          · rw [if_pos hc] at h
            obtain ⟨h1, h2, h3, h4⟩ := ih seen n s h
            have hne : m ≠ n := by
              intro he
              cases hc with
              | inl hx => exact h2 (he ▸ hx)
              | inr hx => exact h1 (he ▸ hx)
            refine ⟨h1, h2, h3, ?_⟩
            unfold firstWithName at h4 ⊢
            have : ((normalizeSchema t).name == some n) = false := by
              simp [hm, hne]
            simp [List.find?_cons, this, h4]
          · rw [if_neg hc] at h
            push_neg at hc
            rcases List.mem_cons.mp h with heq | htail
            · have hn : n = m := by
                have := congrArg Prod.fst heq; simpa using this
              have hs : s = t := by
                have := congrArg Prod.snd heq; simpa using this
              subst hn hs
              refine ⟨hc.2, hc.1, hm, ?_⟩
              unfold firstWithName
              simp [List.find?_cons, hm]
            · obtain ⟨h1, h2, h3, h4⟩ := ih (m :: seen) n s htail
              have hne : m ≠ n := by
                intro he
                exact h1 (he ▸ List.mem_cons_self m seen)
              refine ⟨fun hx => h1 (List.mem_cons_of_mem m hx), h2, h3, ?_⟩
              unfold firstWithName at h4 ⊢
              have : ((normalizeSchema t).name == some n) = false := by
                simp [hm, hne]
              simp [List.find?_cons, this, h4]

lemma dedupeGo_complete (l : List SchemaDict) :
    ∀ (seen : List String) (s : SchemaDict) (n : String),
      s ∈ l → (normalizeSchema s).name = some n → n ≠ "" → n ∉ seen →
      ∃ s2, (n, s2) ∈ dedupeGo seen l := by
  induction l with
  | nil => intro seen s n h; simp at h
  | cons t rest ih =>
      intro seen s n hmem hname hne hseen
      unfold dedupeGo
      rcases List.mem_cons.mp hmem with heq | htail
      · subst heq
        rw [hname]
        dsimp only
        rw [if_neg (by push_neg; exact ⟨hne, hseen⟩)]
        exact ⟨s, List.mem_cons_self _ _⟩
      · cases hm : (normalizeSchema t).name with
        | none => exact ih seen s n htail hname hne hseen
        | some m =>
            dsimp only
            by_cases hc : m = "" ∨ m ∈ seen
            · rw [if_pos hc]
              exact ih seen s n htail hname hne hseen
            · rw [if_neg hc]
              by_cases hnm : n = m
              · exact ⟨t, hnm ▸ List.mem_cons_self _ _⟩
              · obtain ⟨s2, hs2⟩ := ih (m :: seen) s n htail hname hne
                  (by simp [hnm, hseen])
                exact ⟨s2, List.mem_cons_of_mem _ hs2⟩

lemma firstWithName_append_of_some (n : String) (l1 l2 : List SchemaDict)
    (s : SchemaDict) (h : firstWithName n l1 = some s) :
    firstWithName n (l1 ++ l2) = some s := by
  unfold firstWithName at h ⊢
  rw [List.find?_append, h]
  rfl

/-- C4: the merged tool list is deduplicated by normalized name (keys are
nodup), every surviving entry is the first occurrence of its name in the
priority-ordered concatenation, entries with an empty or missing normalized
name are dropped, every well-named input survives under its name, and a name
declared by the caller yields exactly one merged entry: the caller's first
declaration of it (hence its description). -/
theorem C4_schema_merge_dedup :
    (∀ l : List SchemaDict, ((dedupeSchemas l).map Prod.fst).Nodup) ∧
    (∀ (l : List SchemaDict) (n : String) (s : SchemaDict),
      (n, s) ∈ dedupeSchemas l →
      n ≠ "" ∧ (normalizeSchema s).name = some n ∧ firstWithName n l = some s) ∧
    (∀ (l : List SchemaDict) (s : SchemaDict) (n : String),
      s ∈ l → (normalizeSchema s).name = some n → n ≠ "" →
      ∃ s2, (n, s2) ∈ dedupeSchemas l) ∧
    (∀ (explicit mcp decorator : List SchemaDict) (n : String) (s : SchemaDict),
      firstWithName n explicit = some s → n ≠ "" →
      (n, s) ∈ dedupeSchemas (explicit ++ mcp ++ decorator) ∧
      ∀ s2, (n, s2) ∈ dedupeSchemas (explicit ++ mcp ++ decorator) → s2 = s) ∧
    (∀ l : List SchemaDict,
      finalToolsOf l = (dedupeSchemas l).map (fun p => normalizeSchema p.2)) := by
  refine ⟨?_, ?_, ?_, ?_, ?_⟩
  · intro l
    exact (dedupeGo_keys l []).1
  · intro l n s h
    obtain ⟨_, h2, h3, h4⟩ := dedupeGo_mem l [] n s h
    exact ⟨h2, h3, h4⟩
  · intro l s n hmem hname hne
    exact dedupeGo_complete l [] s n hmem hname hne (by simp)
  · intro explicit mcp decorator n s hfirst hne
    have hs_mem : s ∈ explicit := by
      unfold firstWithName at hfirst
      exact List.mem_of_find?_eq_some hfirst
    have hs_name : (normalizeSchema s).name = some n := by
      unfold firstWithName at hfirst
      have := List.find?_some hfirst
      simpa using this
    have hfirst' : firstWithName n (explicit ++ mcp ++ decorator) = some s := by
      rw [List.append_assoc]
      exact firstWithName_append_of_some n explicit (mcp ++ decorator) s hfirst
    have hmem : s ∈ explicit ++ mcp ++ decorator := by
      simp [hs_mem]
    obtain ⟨s2, hs2⟩ := dedupeGo_complete (explicit ++ mcp ++ decorator) [] s n
      hmem hs_name hne (by simp)
    obtain ⟨_, _, _, h4⟩ := dedupeGo_mem (explicit ++ mcp ++ decorator) [] n s2 hs2
    have : s2 = s := by
      rw [hfirst'] at h4
      exact (Option.some_injective _ h4).symm
    subst this
    refine ⟨hs2, ?_⟩
    intro s3 hs3
    obtain ⟨_, _, _, h4'⟩ := dedupeGo_mem (explicit ++ mcp ++ decorator) [] n s3 hs3
    rw [hfirst'] at h4'
    exact (Option.some_injective _ h4').symm
  · intro l
    rfl

/-- Witness for C4: a name declared by both the caller (description "caller")
and the registry (description "registry") keeps the caller's declaration. -/
theorem C4_schema_merge_dedup_witness :
    ("dup", ({ name := some "dup", description := some "caller",
               parameters := some "pc", paramsJsonSchema := none,
               function := none } : SchemaDict)) ∈
      dedupeSchemas
        ([{ name := some "dup", description := some "caller",
            parameters := some "pc", paramsJsonSchema := none, function := none }] ++
         [] ++
         [{ name := some "dup", description := some "registry",
            parameters := some "pr", paramsJsonSchema := none, function := none }]) :=
  (C4_schema_merge_dedup.2.2.2.1
    [{ name := some "dup", description := some "caller",
       parameters := some "pc", paramsJsonSchema := none, function := none }]
    []
    [{ name := some "dup", description := some "registry",
       parameters := some "pr", paramsJsonSchema := none, function := none }]
    "dup"
    { name := some "dup", description := some "caller",
      parameters := some "pc", paramsJsonSchema := none, function := none }
    (by decide) (by decide)).1

/-! ### Unfolding equations for the chat loop -/

lemma chatLoopGo_zero (model : Nat → List Msg → ChatResp)
    (explicit : List SchemaDict) (serverLookup : ServerLookup)
    (schemaRegistry : List (String × SchemaDict)) (registry : Registry)
    (idx : Nat) (r : Ref) (σ : List (List Msg)) :
    chatLoopGo model explicit serverLookup schemaRegistry registry 0 idx r σ =
      .ok (⟨model idx (getRef σ r), true, idx + 1⟩, σ) := rfl

lemma chatLoopGo_succ (model : Nat → List Msg → ChatResp)
    (explicit : List SchemaDict) (serverLookup : ServerLookup)
    (schemaRegistry : List (String × SchemaDict)) (registry : Registry)
    (fuel idx : Nat) (r : Ref) (σ : List (List Msg)) :
    chatLoopGo model explicit serverLookup schemaRegistry registry
        (fuel + 1) idx r σ =
      (if (model idx (getRef σ r)).toolCalls.isEmpty then
        .ok (⟨model idx (getRef σ r), false, idx + 1⟩, σ)
      else if guardHit explicit serverLookup schemaRegistry
          (model idx (getRef σ r)).toolCalls then
        .ok (⟨model idx (getRef σ r), false, idx + 1⟩, σ)
      else
        match gatherExcept
            (fun call => processToolCall call call.name call.arguments
              serverLookup registry)
            (model idx (getRef σ r)).toolCalls with
        | .error e => .error e
        | .ok parts =>
            chatLoopGo model explicit serverLookup schemaRegistry registry
              fuel (idx + 1) r (extendRef σ r parts.flatten)) := rfl

/-! ### Lemmas: Tool Dispatcher -/

lemma gatherExcept_ok_of_forall (f : α → Except PyError β) :
    ∀ l : List α, (∀ x ∈ l, ∃ y, f x = .ok y) →
      ∃ ys, gatherExcept f l = .ok ys := by
  intro l
  induction l with
  | nil => intro _; exact ⟨[], rfl⟩
  | cons x xs ih =>
      intro h
      obtain ⟨y, hy⟩ := h x (List.mem_cons_self x xs)
      obtain ⟨ys, hys⟩ := ih (fun z hz => h z (List.mem_cons_of_mem x hz))
      exact ⟨y :: ys, by unfold gatherExcept; rw [hy, hys]⟩

lemma gatherExcept_error_of_exists (f : α → Except PyError β) :
    ∀ l : List α, (∃ x ∈ l, ∃ e, f x = .error e) →
      ∃ e, gatherExcept f l = .error e := by
  intro l
  induction l with
  | nil => rintro ⟨x, hx, _⟩; simp at hx
  | cons x xs ih =>
      rintro ⟨z, hz, e, he⟩
      unfold gatherExcept
      cases hfx : f x with
      | error e2 => exact ⟨e2, rfl⟩
      | ok y =>
          rcases List.mem_cons.mp hz with heq | htail
          · subst heq; rw [hfx] at he; cases he
          · obtain ⟨e3, he3⟩ := ih ⟨z, htail, e, he⟩
            exact ⟨e3, by rw [he3]⟩

lemma gatherExcept_length (f : α → Except PyError β) :
    ∀ (l : List α) (ys : List β), gatherExcept f l = .ok ys →
      ys.length = l.length := by
  intro l
  induction l with
  | nil => intro ys h; unfold gatherExcept at h; cases h; rfl
  | cons x xs ih =>
      intro ys h
      unfold gatherExcept at h
      cases hfx : f x with
      | error e => rw [hfx] at h; cases h
      | ok y =>
          rw [hfx] at h
          cases hg : gatherExcept f xs with
          | error e => rw [hg] at h; cases h
          | ok zs =>
              rw [hg] at h
              cases h
              simp [ih zs hg]

lemma gatherExcept_get (f : α → Except PyError β) :
    ∀ (l : List α) (ys : List β), gatherExcept f l = .ok ys →
      ∀ (k : Nat) (h1 : k < l.length) (h2 : k < ys.length),
        f (l.get ⟨k, h1⟩) = .ok (ys.get ⟨k, h2⟩) := by
  intro l
  induction l with
  | nil => intro ys _ k h1; simp at h1
  | cons x xs ih =>
      intro ys h k h1 h2
      unfold gatherExcept at h
      cases hfx : f x with
      | error e => rw [hfx] at h; cases h
      | ok y =>
          rw [hfx] at h
          cases hg : gatherExcept f xs with
          | error e => rw [hg] at h; cases h
          | ok zs =>
              rw [hg] at h
              cases h
              cases k with
              | zero => simpa using hfx
              | succ m =>
                  simp only [List.get_cons_succ]
                  exact ih zs hg m (Nat.lt_of_succ_lt_succ h1)
                    (Nat.lt_of_succ_lt_succ h2)

lemma processToolCall_ok_shape (call : ToolCall) (fnName : String) (fnArgs : Args)
    (serverLookup : ServerLookup) (registry : Registry) (msgs : List Msg)
    (h : processToolCall call fnName fnArgs serverLookup registry = .ok msgs) :
    ∃ out, msgs = [.assistantToolCalls [call], .toolResult fnName out call.id] := by
  unfold processToolCall at h
  cases hs : assocFind fnName serverLookup with
  | some server =>
      rw [hs] at h
      dsimp only at h
      cases h
      exact ⟨_, rfl⟩
  | none =>
      rw [hs] at h
      cases hr : assocFind fnName registry with
      | some fn => rw [hr] at h; cases h; exact ⟨_, rfl⟩
      | none => rw [hr] at h; cases h

lemma processToolCall_ok_of_resolvable (call : ToolCall) (fnName : String)
    (fnArgs : Args) (serverLookup : ServerLookup) (registry : Registry)
    (h : (assocFind fnName serverLookup).isSome ∨ (assocFind fnName registry).isSome) :
    ∃ msgs, processToolCall call fnName fnArgs serverLookup registry = .ok msgs := by
  unfold processToolCall
  cases hs : assocFind fnName serverLookup with
  | some server => exact ⟨_, rfl⟩
  | none =>
      cases hr : assocFind fnName registry with
      | some fn => exact ⟨_, rfl⟩
      | none =>
          rw [hs, hr] at h
          simp at h

/-- C1 (amended): in the Chat Loop dispatch path a raising remote call is
caught and becomes an error-tagged string result, and the round continues to
the next model call; in the Responses dispatch path (`_execute_tool`) the
exception is NOT caught: it propagates as an error. -/
theorem C1_remote_error_containment :
    (∀ (call : ToolCall) (fnName : String) (fnArgs : Args)
        (serverLookup : ServerLookup) (registry : Registry) (server : Server)
        (e : String),
      assocFind fnName serverLookup = some server →
      server.callToolFn fnName fnArgs = .error e →
      processToolCall call fnName fnArgs serverLookup registry =
        .ok [.assistantToolCalls [call],
             .toolResult fnName ("Error calling MCP tool " ++ fnName ++ ": " ++ e)
               call.id]) ∧
    (∀ (model : Nat → List Msg → ChatResp) (explicit : List SchemaDict)
        (serverLookup : ServerLookup) (schemaRegistry : List (String × SchemaDict))
        (registry : Registry) (fuel idx : Nat) (r : Ref) (σ : List (List Msg)),
      (model idx (getRef σ r)).toolCalls ≠ [] →
      guardHit explicit serverLookup schemaRegistry
        (model idx (getRef σ r)).toolCalls = false →
      (∀ c ∈ (model idx (getRef σ r)).toolCalls,
        (assocFind c.name serverLookup).isSome) →
      ∃ parts,
        gatherExcept
          (fun call => processToolCall call call.name call.arguments serverLookup registry)
          (model idx (getRef σ r)).toolCalls = .ok parts ∧
        chatLoopGo model explicit serverLookup schemaRegistry registry
            (fuel + 1) idx r σ =
          chatLoopGo model explicit serverLookup schemaRegistry registry
            fuel (idx + 1) r (extendRef σ r parts.flatten)) ∧
    (∀ (fnName : String) (fnArgs : Args) (serverLookup : ServerLookup)
        (registry : Registry) (server : Server) (e : String),
      assocFind fnName serverLookup = some server →
      server.callToolFn fnName fnArgs = .error e →
      executeTool fnName fnArgs serverLookup registry =
        .error (.remoteCallError fnName e)) := by
  refine ⟨?_, ?_, ?_⟩
  · intro call fnName fnArgs serverLookup registry server e hs he
    unfold processToolCall
    rw [hs]
    dsimp only
    rw [he]
  · intro model explicit serverLookup schemaRegistry registry fuel idx r σ
      hne hguard hres
    obtain ⟨parts, hparts⟩ := gatherExcept_ok_of_forall _
      (model idx (getRef σ r)).toolCalls
      (fun c hc => processToolCall_ok_of_resolvable c c.name c.arguments
        serverLookup registry (Or.inl (hres c hc)))
    refine ⟨parts, hparts, ?_⟩
    have hne2 : (model idx (getRef σ r)).toolCalls.isEmpty = false := by
      simpa [List.isEmpty_iff] using hne
    rw [chatLoopGo_succ, hne2, hguard]
    simp [hparts]
  · intro fnName fnArgs serverLookup registry server e hs he
    unfold executeTool
    rw [hs]
    dsimp only
    rw [he]

/-- A tool server whose remote call always raises. -/
def failingServer : Server :=
  { name := "bad", connected := true, tools := ["t"],
    callToolFn := fun _ _ => .error "boom" }

/-- Witness for C1 (amended) at concrete inputs. -/
theorem C1_remote_error_containment_witness :
    processToolCall { id := some "c1", name := "t", arguments := [] } "t" []
        [("t", failingServer)] [] =
      .ok [.assistantToolCalls [{ id := some "c1", name := "t", arguments := [] }],
           .toolResult "t" "Error calling MCP tool t: boom" (some "c1")] ∧
    executeTool "t" [] [("t", failingServer)] [] =
      .error (.remoteCallError "t" "boom") :=
  ⟨C1_remote_error_containment.1
      { id := some "c1", name := "t", arguments := [] } "t" []
      [("t", failingServer)] [] failingServer "boom" rfl rfl,
   C1_remote_error_containment.2.2 "t" [] [("t", failingServer)] []
      failingServer "boom" rfl rfl⟩

/-- Counterexample to C1 as stated: in the Response Follow-up dispatch path
(`_execute_tool`) an exception from the remote call is not converted into an
error-tagged string result — it propagates, and the whole responses call
aborts instead of continuing. -/
theorem C1_counterexample :
    executeTool "t" [] [("t", failingServer)] [] =
      .error (.remoteCallError "t" "boom") ∧
    responsesDriver
        (fun _ _ _ => { rid := "r0",
                        output := [{ type := "function_call", name := "t",
                                     arguments := [], callId := "fc1" }] })
        [("t", failingServer)] [] 0 [[]] =
      .error (.remoteCallError "t" "boom") := by
  constructor
  · rfl
  · rfl

/-- C2 (amended): on a successful remote call both dispatch paths output the
`content` field of the structured reply when it is present; when the reply
has no `content` field the output is the null value (rendered "None" in the
chat tool message and "null" in the follow-up payload), NOT the whole
structured reply. -/
theorem C2_content_extraction :
    (∀ (call : ToolCall) (fnName : String) (fnArgs : Args)
        (serverLookup : ServerLookup) (registry : Registry) (server : Server)
        (reply : Reply),
      assocFind fnName serverLookup = some server →
      server.callToolFn fnName fnArgs = .ok reply →
      processToolCall call fnName fnArgs serverLookup registry =
        .ok [.assistantToolCalls [call],
             .toolResult fnName (pyStr reply.content) call.id] ∧
      executeTool fnName fnArgs serverLookup registry = .ok reply.content) ∧
    (∀ c : String, pyStr (some c) = c ∧ dumpResult (some c) = c) ∧
    (pyStr none = "None" ∧ dumpResult none = "null") := by
  refine ⟨?_, ?_, ?_⟩
  · intro call fnName fnArgs serverLookup registry server reply hs hr
    constructor
    · unfold processToolCall
      rw [hs]
      dsimp only
      rw [hr]
    · unfold executeTool
      rw [hs]
      dsimp only
      rw [hr]
  · intro c; exact ⟨rfl, rfl⟩
  · exact ⟨rfl, rfl⟩

/-- A tool server whose reply carries no `content` field. -/
def noContentServer : Server :=
  { name := "nc", connected := true, tools := ["t"],
    callToolFn := fun _ _ => .ok { content := none, whole := "WHOLE_REPLY" } }

/-- Witness for C2 (amended) at concrete inputs. -/
theorem C2_content_extraction_witness :
    processToolCall { id := some "c2", name := "t", arguments := [] } "t" []
        [("t", demoServer)] [] =
      .ok [.assistantToolCalls [{ id := some "c2", name := "t", arguments := [] }],
           .toolResult "t" "ok" (some "c2")] ∧
    executeTool "t" [] [("t", demoServer)] [] = .ok (some "ok") :=
  C2_content_extraction.1 { id := some "c2", name := "t", arguments := [] }
    "t" [] [("t", demoServer)] [] demoServer
    { content := some "ok", whole := "reply" } rfl rfl

/-- Counterexample to C2 as stated: when the structured reply has no
`content` field the dispatchers do NOT fall back to the whole structured
reply — the chat path renders the null value "None" and the responses path
returns the null value, while the spec-modelled fallback would be the whole
reply. -/
theorem C2_counterexample :
    processToolCall { id := some "x", name := "t", arguments := [] } "t" []
        [("t", noContentServer)] [] =
      .ok [.assistantToolCalls [{ id := some "x", name := "t", arguments := [] }],
           .toolResult "t" "None" (some "x")] ∧
    executeTool "t" [] [("t", noContentServer)] [] = .ok none ∧
    specToolOutput { content := none, whole := "WHOLE_REPLY" } = "WHOLE_REPLY" ∧
    ("None" : String) ≠ "WHOLE_REPLY" ∧ dumpResult none ≠ "WHOLE_REPLY" := by
  refine ⟨rfl, rfl, rfl, by decide, by decide⟩

/-- C9 (amended): a dispatch whose name is in neither the server lookup nor
the function registry fails uncontained in both paths and aborts the
orchestration call; the Chat Loop dispatch path raises the explicit
"tool not registered" KeyError, while the Responses dispatch path fails by
invoking the absent callable (a NoneType-call TypeError), not a lookup
signal. -/
theorem C9_unregistered_tool_aborts :
    (∀ (call : ToolCall) (fnName : String) (fnArgs : Args)
        (serverLookup : ServerLookup) (registry : Registry),
      assocFind fnName serverLookup = none →
      assocFind fnName registry = none →
      processToolCall call fnName fnArgs serverLookup registry =
        .error (.keyErrorNotRegistered fnName)) ∧
    (∀ (fnName : String) (fnArgs : Args) (serverLookup : ServerLookup)
        (registry : Registry),
      assocFind fnName serverLookup = none →
      assocFind fnName registry = none →
      executeTool fnName fnArgs serverLookup registry =
        .error (.typeErrorNoneNotCallable fnName)) ∧
    (∀ (model : Nat → List Msg → ChatResp) (explicit : List SchemaDict)
        (serverLookup : ServerLookup) (schemaRegistry : List (String × SchemaDict))
        (registry : Registry) (fuel idx : Nat) (r : Ref) (σ : List (List Msg)),
      guardHit explicit serverLookup schemaRegistry
        (model idx (getRef σ r)).toolCalls = false →
      (∃ c ∈ (model idx (getRef σ r)).toolCalls,
        assocFind c.name serverLookup = none ∧ assocFind c.name registry = none) →
      ∃ e, chatLoopGo model explicit serverLookup schemaRegistry registry
          (fuel + 1) idx r σ = .error e) ∧
    (∀ (backend : Nat → List RItem → Option String → RResp)
        (serverLookup : ServerLookup) (registry : Registry)
        (payloadRef : Ref) (σ : List (List RItem)),
      (∃ c ∈ ((backend 0 (getRef σ payloadRef) none).output.filter
          (fun o => o.type == "function_call")),
        assocFind c.name serverLookup = none ∧ assocFind c.name registry = none) →
      ∃ e, responsesDriver backend serverLookup registry payloadRef σ =
        .error e) := by
  refine ⟨?_, ?_, ?_, ?_⟩
  · intro call fnName fnArgs serverLookup registry hs hr
    unfold processToolCall
    rw [hs, hr]
  · intro fnName fnArgs serverLookup registry hs hr
    unfold executeTool
    rw [hs, hr]
  · intro model explicit serverLookup schemaRegistry registry fuel idx r σ
      hguard hex
    obtain ⟨c, hc, hs, hr⟩ := hex
    have hne2 : (model idx (getRef σ r)).toolCalls.isEmpty = false := by
      have hnil : (model idx (getRef σ r)).toolCalls ≠ [] := by
        intro h0; rw [h0] at hc; simp at hc
      simpa [List.isEmpty_iff] using hnil
    have herr : ∃ e, gatherExcept
        (fun call => processToolCall call call.name call.arguments
          serverLookup registry)
        (model idx (getRef σ r)).toolCalls = .error e := by
      apply gatherExcept_error_of_exists
      refine ⟨c, hc, .keyErrorNotRegistered c.name, ?_⟩
      unfold processToolCall
      rw [hs, hr]
    obtain ⟨e, he⟩ := herr
    refine ⟨e, ?_⟩
    rw [chatLoopGo_succ, hne2, hguard]
    simp [he]
  · intro backend serverLookup registry payloadRef σ hex
    obtain ⟨c, hc, hs, hr⟩ := hex
    unfold responsesDriver
    dsimp only
    have hcopy : getRef (σ ++ [getRef σ payloadRef]) σ.length = getRef σ payloadRef := by
      unfold getRef
      simp
    rw [allocRef]
    dsimp only
    rw [hcopy]
    have hne2 : ((backend 0 (getRef σ payloadRef) none).output.filter
        (fun o => o.type == "function_call")).isEmpty = false := by
      have hnil : (backend 0 (getRef σ payloadRef) none).output.filter
          (fun o => o.type == "function_call") ≠ [] := by
        intro h0; rw [h0] at hc; simp at hc
      simpa [List.isEmpty_iff] using hnil
    rw [hne2]
    have herr : ∃ e, gatherExcept
        (fun call => executeTool call.name call.arguments serverLookup registry)
        ((backend 0 (getRef σ payloadRef) none).output.filter
          (fun o => o.type == "function_call")) = .error e := by
      apply gatherExcept_error_of_exists
      refine ⟨c, hc, .typeErrorNoneNotCallable c.name, ?_⟩
      unfold executeTool
      rw [hs, hr]
    obtain ⟨e, he⟩ := herr
    refine ⟨e, ?_⟩
    simp [he]

/-- Witness for C9 (amended) at concrete inputs. -/
theorem C9_unregistered_tool_aborts_witness :
    processToolCall { id := some "c9", name := "ghost", arguments := [] }
        "ghost" [] [] [] = .error (.keyErrorNotRegistered "ghost") ∧
    executeTool "ghost" [] [] [] = .error (.typeErrorNoneNotCallable "ghost") :=
  ⟨C9_unregistered_tool_aborts.1 { id := some "c9", name := "ghost", arguments := [] }
      "ghost" [] [] [] rfl rfl,
   C9_unregistered_tool_aborts.2.1 "ghost" [] [] [] rfl rfl⟩

/-- Counterexample to C9 as stated: in the Responses dispatch path the
failure raised for an unregistered name is the NoneType-call error, not a
lookup failure signalling that the tool is not registered. -/
theorem C9_counterexample :
    executeTool "ghost" [] [] [] = .error (.typeErrorNoneNotCallable "ghost") ∧
    (PyError.typeErrorNoneNotCallable "ghost" ≠
      PyError.keyErrorNotRegistered "ghost") := by
  exact ⟨rfl, by decide⟩

/-- C8 (amended): if some requested tool name in a round appears as the
TOP-LEVEL `name` value of a caller-supplied declaration dict (the flat shape
— nested-shape declarations do not register in `explicit_names`) and is
neither in the server lookup nor among the registry's schema keys, the loop
returns the raw model response immediately, with nothing dispatched and
nothing appended to the message history. -/
theorem C8_caller_only_tool_guard :
    (∀ (explicit : List SchemaDict) (serverLookup : ServerLookup)
        (schemaRegistry : List (String × SchemaDict)) (calls : List ToolCall)
        (c : ToolCall),
      c ∈ calls →
      (some c.name) ∈ explicitNames explicit →
      assocFind c.name serverLookup = none →
      assocFind c.name schemaRegistry = none →
      guardHit explicit serverLookup schemaRegistry calls = true) ∧
    (∀ (model : Nat → List Msg → ChatResp) (explicit : List SchemaDict)
        (serverLookup : ServerLookup) (schemaRegistry : List (String × SchemaDict))
        (registry : Registry) (fuel idx : Nat) (r : Ref) (σ : List (List Msg)),
      guardHit explicit serverLookup schemaRegistry
        (model idx (getRef σ r)).toolCalls = true →
      chatLoopGo model explicit serverLookup schemaRegistry registry
          (fuel + 1) idx r σ =
        .ok (⟨model idx (getRef σ r), false, idx + 1⟩, σ)) := by
  constructor
  · intro explicit serverLookup schemaRegistry calls c hc hexp hs hr
    unfold guardHit
    rw [List.any_eq_true]
    refine ⟨c, hc, ?_⟩
    simp [hexp, hs, hr]
  · intro model explicit serverLookup schemaRegistry registry fuel idx r σ hguard
    have hne2 : (model idx (getRef σ r)).toolCalls.isEmpty = false := by
      have hnil : (model idx (getRef σ r)).toolCalls ≠ [] := by
        intro h0
        rw [h0] at hguard
        simp [guardHit] at hguard
      simpa [List.isEmpty_iff] using hnil
    rw [chatLoopGo_succ, hne2, hguard]
    simp

/-- A flat-shape caller declaration of the tool "mine". -/
def callerFlatSchema : SchemaDict :=
  { name := some "mine", description := some "caller handled",
    parameters := some "p", paramsJsonSchema := none, function := none }

/-- A model that always requests the tool "mine". -/
def mineModel : Nat → List Msg → ChatResp :=
  fun _ _ => { rid := 7, toolCalls := [{ id := some "m1", name := "mine", arguments := [] }] }

/-- Witness for C8 (amended): a flat caller-declared, unresolvable tool name
makes the driver return the raw response at once with the store untouched. -/
theorem C8_caller_only_tool_guard_witness :
    chatLoopGo mineModel [callerFlatSchema] [] [] [] 19 0 0 [[]] =
      .ok (⟨mineModel 0 (getRef [[]] 0), false, 1⟩, [[]]) :=
  C8_caller_only_tool_guard.2 mineModel [callerFlatSchema] [] [] [] 18 0 0 [[]]
    (C8_caller_only_tool_guard.1 [callerFlatSchema] [] []
      (mineModel 0 (getRef [[]] 0)).toolCalls
      { id := some "m1", name := "mine", arguments := [] }
      (by decide) (by decide) rfl rfl)

/-- A nested-shape caller declaration of the tool "foo" (the standard chat
completions tool shape). -/
def callerNestedSchema : SchemaDict :=
  { name := none, description := none, parameters := none,
    paramsJsonSchema := none,
    function := some { name := some "foo", description := some "caller handled",
                       parameters := some "p", paramsJsonSchema := none } }

/-- A model that always requests the tool "foo". -/
def fooModel : Nat → List Msg → ChatResp :=
  fun _ _ => { rid := 9, toolCalls := [{ id := some "f1", name := "foo", arguments := [] }] }

/-- Counterexample to C8 as stated: "foo" appears in the caller-supplied
declarations (nested shape, normalized name "foo") and is neither
server-resolvable nor in the registry schemas, yet the driver does NOT
return the raw response — the guard misses nested declarations and the
dispatch aborts with the unregistered-tool KeyError. -/
theorem C8_counterexample :
    (normalizeSchema callerNestedSchema).name = some "foo" ∧
    guardHit [callerNestedSchema] [] [] (fooModel 0 []).toolCalls = false ∧
    chatDriver fooModel [callerNestedSchema] [] [] [] 0 [[]] =
      .error (.keyErrorNotRegistered "foo") := by
  refine ⟨rfl, rfl, rfl⟩

/-! ### Lemmas: Chat Loop termination -/

lemma chatLoopGo_always_tools (model : Nat → List Msg → ChatResp)
    (explicit : List SchemaDict) (serverLookup : ServerLookup)
    (schemaRegistry : List (String × SchemaDict)) (registry : Registry)
    (H1 : ∀ i m, (model i m).toolCalls ≠ [])
    (H2 : ∀ i m, guardHit explicit serverLookup schemaRegistry
      (model i m).toolCalls = false)
    (H3 : ∀ i m, ∀ c ∈ (model i m).toolCalls,
      (assocFind c.name serverLookup).isSome ∨ (assocFind c.name registry).isSome) :
    ∀ (fuel idx : Nat) (r : Ref) (σ : List (List Msg)),
      ∃ σ2, chatLoopGo model explicit serverLookup schemaRegistry registry
          fuel idx r σ =
        .ok (⟨model (idx + fuel) (getRef σ2 r), true, idx + fuel + 1⟩, σ2) := by
  intro fuel
  induction fuel with
  | zero =>
      intro idx r σ
      exact ⟨σ, by rw [chatLoopGo_zero]; simp⟩
  | succ f ih =>
      intro idx r σ
      have hne2 : (model idx (getRef σ r)).toolCalls.isEmpty = false := by
        simpa [List.isEmpty_iff] using H1 idx (getRef σ r)
      obtain ⟨parts, hparts⟩ := gatherExcept_ok_of_forall
        (fun call => processToolCall call call.name call.arguments
          serverLookup registry)
        (model idx (getRef σ r)).toolCalls
        (fun c hc => processToolCall_ok_of_resolvable c c.name c.arguments
          serverLookup registry (H3 idx (getRef σ r) c hc))
      obtain ⟨σ2, hσ2⟩ := ih (idx + 1) r (extendRef σ r parts.flatten)
      refine ⟨σ2, ?_⟩
      rw [chatLoopGo_succ, hne2, H2 idx (getRef σ r)]
      simp only [Bool.false_eq_true, if_false]
      rw [hparts]
      dsimp only
      rw [hσ2, show idx + 1 + f = idx + (f + 1) by omega]

/-- C3: a model that requests at least one executable tool call in every
response (never hitting the caller-only guard) drives the Chat Loop to
terminate after exactly MAX_TOOL_LOOPS = 20 model calls, returning the 20th
response verbatim with the max-tool-loops warning and no raise; and a model
response with no tool calls is returned immediately after one call. -/
theorem C3_loop_termination :
    (∀ (model : Nat → List Msg → ChatResp) (explicit : List SchemaDict)
        (serverLookup : ServerLookup) (schemaRegistry : List (String × SchemaDict))
        (registry : Registry) (payloadRef : Ref) (σ : List (List Msg)),
      (∀ i m, (model i m).toolCalls ≠ []) →
      (∀ i m, guardHit explicit serverLookup schemaRegistry
        (model i m).toolCalls = false) →
      (∀ i m, ∀ c ∈ (model i m).toolCalls,
        (assocFind c.name serverLookup).isSome ∨
        (assocFind c.name registry).isSome) →
      ∃ σ2, chatDriver model explicit serverLookup schemaRegistry registry
          payloadRef σ =
        .ok (⟨model 19 (getRef σ2 payloadRef), true, MAX_TOOL_LOOPS⟩, σ2)) ∧
    (∀ (model : Nat → List Msg → ChatResp) (explicit : List SchemaDict)
        (serverLookup : ServerLookup) (schemaRegistry : List (String × SchemaDict))
        (registry : Registry) (payloadRef : Ref) (σ : List (List Msg)),
      (model 0 (getRef σ payloadRef)).toolCalls = [] →
      chatDriver model explicit serverLookup schemaRegistry registry
          payloadRef σ =
        .ok (⟨model 0 (getRef σ payloadRef), false, 1⟩, σ)) := by
  constructor
  · intro model explicit serverLookup schemaRegistry registry payloadRef σ
      H1 H2 H3
    obtain ⟨σ2, h⟩ := chatLoopGo_always_tools model explicit serverLookup
      schemaRegistry registry H1 H2 H3 (MAX_TOOL_LOOPS - 1) 0 payloadRef σ
    exact ⟨σ2, h⟩
  · intro model explicit serverLookup schemaRegistry registry payloadRef σ h0
    unfold chatDriver
    have : MAX_TOOL_LOOPS - 1 = 18 + 1 := rfl
    rw [this, chatLoopGo_succ]
    rw [h0]
    simp

/-- A model that always requests the registered local tool "t". -/
def alwaysToolModel : Nat → List Msg → ChatResp :=
  fun _ _ => { rid := 1, toolCalls := [{ id := some "a1", name := "t", arguments := [] }] }

/-- A model that never requests a tool. -/
def noToolModel : Nat → List Msg → ChatResp :=
  fun _ _ => { rid := 2, toolCalls := [] }

/-- Witness for C3: concrete always-tool-requesting and no-tool models. -/
theorem C3_loop_termination_witness :
    (∃ σ2, chatDriver alwaysToolModel [] [] [] [("t", fun _ => "ok")] 0 [[]] =
      .ok (⟨alwaysToolModel 19 (getRef σ2 0), true, MAX_TOOL_LOOPS⟩, σ2)) ∧
    chatDriver noToolModel [] [] [] [] 0 [[]] =
      .ok (⟨noToolModel 0 (getRef [[]] 0), false, 1⟩, [[]]) :=
  ⟨C3_loop_termination.1 alwaysToolModel [] [] [] [("t", fun _ => "ok")] 0 [[]]
      (fun i m => List.cons_ne_nil _ _)
      (fun i m => rfl)
      (fun _ _ c hc => by
        have : c = { id := some "a1", name := "t", arguments := [] } := by
          simpa [alwaysToolModel] using hc
        subst this
        right
        decide),
   C3_loop_termination.2 noToolModel [] [] [] [] 0 [[]] rfl⟩

/-! ### Lemmas: the list store -/

lemma getRef_alloc (σ : List (List α)) (v : List α) :
    getRef (σ ++ [v]) σ.length = v := by
  unfold getRef
  rw [List.getElem?_concat_length]
  rfl

lemma getRef_append_left (σ : List (List α)) (v : List α) (r : Ref)
    (h : r < σ.length) :
    getRef (σ ++ [v]) r = getRef σ r := by
  unfold getRef
  rw [List.getElem?_append, if_pos h]

lemma getRef_extendRef_self (σ : List (List α)) (r : Ref) (xs : List α)
    (h : r < σ.length) :
    getRef (extendRef σ r xs) r = getRef σ r ++ xs := by
  unfold extendRef setRef getRef
  rw [List.getElem?_set_eq_of_lt _ h]
  rfl

lemma getRef_extendRef_ne (σ : List (List α)) (i j : Ref) (xs : List α)
    (h : i ≠ j) :
    getRef (extendRef σ i xs) j = getRef σ j := by
  unfold extendRef setRef getRef
  rw [List.getElem?_set_ne h]


lemma length_extendRef (σ : List (List α)) (r : Ref) (xs : List α) :
    (extendRef σ r xs).length = σ.length := by
  simp [extendRef, setRef]

/-! ### Lemmas: Response Follow-up Driver -/

/-- The function_call_output entries the driver appends, one per (call,
result) pair in request order. -/
def outputsOf (calls : List OutputItem) (results : List (Option String)) :
    List RItem :=
  (calls.zip results).map
    (fun cr => RItem.functionCallOutput cr.1.callId (dumpResult cr.2))

lemma responsesDriver_no_calls (backend : Nat → List RItem → Option String → RResp)
    (serverLookup : ServerLookup) (registry : Registry) (r : Ref)
    (σ : List (List RItem))
    (h : ((backend 0 (getRef σ r) none).output.filter
      (fun o => o.type == "function_call")) = []) :
    responsesDriver backend serverLookup registry r σ =
      .ok (⟨backend 0 (getRef σ r) none, 1⟩, σ ++ [getRef σ r]) := by
  unfold responsesDriver
  dsimp only [allocRef]
  rw [getRef_alloc, h]
  rfl

lemma responsesDriver_with_calls (backend : Nat → List RItem → Option String → RResp)
    (serverLookup : ServerLookup) (registry : Registry) (r : Ref)
    (σ : List (List RItem)) (results : List (Option String))
    (hne : ((backend 0 (getRef σ r) none).output.filter
      (fun o => o.type == "function_call")) ≠ [])
    (hg : gatherExcept
      (fun call => executeTool call.name call.arguments serverLookup registry)
      ((backend 0 (getRef σ r) none).output.filter
        (fun o => o.type == "function_call")) = .ok results) :
    responsesDriver backend serverLookup registry r σ =
      .ok (⟨backend 1
              (getRef σ r ++ outputsOf
                ((backend 0 (getRef σ r) none).output.filter
                  (fun o => o.type == "function_call")) results)
              (some (backend 0 (getRef σ r) none).rid), 2⟩,
           extendRef (σ ++ [getRef σ r]) σ.length
             (outputsOf
               ((backend 0 (getRef σ r) none).output.filter
                 (fun o => o.type == "function_call")) results)) := by
  unfold responsesDriver
  dsimp only [allocRef]
  rw [getRef_alloc]
  have hne2 : ((backend 0 (getRef σ r) none).output.filter
      (fun o => o.type == "function_call")).isEmpty = false := by
    simpa [List.isEmpty_iff] using hne
  rw [hne2]
  simp only [Bool.false_eq_true, if_false]
  rw [hg]
  dsimp only [outputsOf]
  rw [getRef_extendRef_self _ _ _ (by simp), getRef_alloc]

lemma responsesDriver_calls_le_two (backend : Nat → List RItem → Option String → RResp)
    (serverLookup : ServerLookup) (registry : Registry) (r : Ref)
    (σ : List (List RItem)) (o : RespOutcome) (σ2 : List (List RItem))
    (h : responsesDriver backend serverLookup registry r σ = .ok (o, σ2)) :
    o.numBackendCalls ≤ 2 := by
  unfold responsesDriver at h
  dsimp only [allocRef] at h
  by_cases hc : ((backend 0 (getRef (σ ++ [getRef σ r]) σ.length) none).output.filter
      (fun obj => obj.type == "function_call")).isEmpty = true
  · rw [if_pos hc] at h
    cases h
    exact Nat.le_succ 1
  · rw [if_neg hc] at h
    rcases hg : gatherExcept
        (fun call => executeTool call.name call.arguments serverLookup registry)
        ((backend 0 (getRef (σ ++ [getRef σ r]) σ.length) none).output.filter
          (fun obj => obj.type == "function_call")) with e | results
    · rw [hg] at h; cases h
    · rw [hg] at h
      dsimp only at h
      cases h
      exact Nat.le_refl 2

/-- C6: the Response Follow-up Driver calls the backend at most twice: a
response with no function-call output items is returned unchanged after the
single initial call; otherwise exactly one follow-up call is issued,
referencing the initial response id as predecessor, and its response is
returned without scanning it for further function calls. -/
theorem C6_single_follow_up :
    (∀ (backend : Nat → List RItem → Option String → RResp)
        (serverLookup : ServerLookup) (registry : Registry) (r : Ref)
        (σ : List (List RItem)) (o : RespOutcome) (σ2 : List (List RItem)),
      responsesDriver backend serverLookup registry r σ = .ok (o, σ2) →
      o.numBackendCalls ≤ 2) ∧
    (∀ (backend : Nat → List RItem → Option String → RResp)
        (serverLookup : ServerLookup) (registry : Registry) (r : Ref)
        (σ : List (List RItem)),
      ((backend 0 (getRef σ r) none).output.filter
        (fun o => o.type == "function_call")) = [] →
      responsesDriver backend serverLookup registry r σ =
        .ok (⟨backend 0 (getRef σ r) none, 1⟩, σ ++ [getRef σ r])) ∧
    (∀ (backend : Nat → List RItem → Option String → RResp)
        (serverLookup : ServerLookup) (registry : Registry) (r : Ref)
        (σ : List (List RItem)) (results : List (Option String)),
      ((backend 0 (getRef σ r) none).output.filter
        (fun o => o.type == "function_call")) ≠ [] →
      gatherExcept
        (fun call => executeTool call.name call.arguments serverLookup registry)
        ((backend 0 (getRef σ r) none).output.filter
          (fun o => o.type == "function_call")) = .ok results →
      responsesDriver backend serverLookup registry r σ =
        .ok (⟨backend 1
                (getRef σ r ++ outputsOf
                  ((backend 0 (getRef σ r) none).output.filter
                    (fun o => o.type == "function_call")) results)
                (some (backend 0 (getRef σ r) none).rid), 2⟩,
             extendRef (σ ++ [getRef σ r]) σ.length
               (outputsOf
                 ((backend 0 (getRef σ r) none).output.filter
                   (fun o => o.type == "function_call")) results))) := by
  refine ⟨?_, ?_, ?_⟩
  · intro backend serverLookup registry r σ o σ2 h
    exact responsesDriver_calls_le_two backend serverLookup registry r σ o σ2 h
  · intro backend serverLookup registry r σ h
    exact responsesDriver_no_calls backend serverLookup registry r σ h
  · intro backend serverLookup registry r σ results hne hg
    exact responsesDriver_with_calls backend serverLookup registry r σ results hne hg

/-- A backend whose every response carries two function-call requests (so
even the follow-up response requests more tools). -/
def twoCallBackend : Nat → List RItem → Option String → RResp :=
  fun i _ _ =>
    { rid := if i = 0 then "r0" else "r1",
      output := [{ type := "function_call", name := "t", arguments := [], callId := "a" },
                 { type := "function_call", name := "t", arguments := [], callId := "b" }] }

/-- Witness for C6: with two function-call requests per response (including
the follow-up response) the driver still issues exactly one initial call and
one follow-up — the returned outcome records 2 backend calls. -/
theorem C6_single_follow_up_witness :
    responsesDriver twoCallBackend [("t", demoServer)] [] 0 [[]] =
      .ok (⟨twoCallBackend 1
              (getRef [[]] 0 ++ outputsOf
                ((twoCallBackend 0 (getRef [[]] 0) none).output.filter
                  (fun o => o.type == "function_call")) [some "ok", some "ok"])
              (some (twoCallBackend 0 (getRef [[]] 0) none).rid), 2⟩,
           extendRef ([[]] ++ [getRef [[]] 0]) 1
             (outputsOf
               ((twoCallBackend 0 (getRef [[]] 0) none).output.filter
                 (fun o => o.type == "function_call")) [some "ok", some "ok"])) :=
  C6_single_follow_up.2.2 twoCallBackend [("t", demoServer)] [] 0 [[]]
    [some "ok", some "ok"] (by decide) rfl

/-- C7: a dispatched batch is recombined in request order in both drivers.
In the chat loop the round appends, for the k-th requested call, the k-th
two-entry block (assistant replay + tool result tagged with that call's id),
concatenated in request order onto the message history; in the responses
driver the k-th appended function_call_output entry carries the k-th
request's call_id and result. -/
theorem C7_dispatch_order_preserved :
    (∀ (serverLookup : ServerLookup) (registry : Registry)
        (cs : List ToolCall) (parts : List (List Msg)),
      gatherExcept
        (fun call => processToolCall call call.name call.arguments
          serverLookup registry) cs = .ok parts →
      parts.length = cs.length ∧
      ∀ (k : Nat) (h1 : k < cs.length) (h2 : k < parts.length),
        ∃ out, parts.get ⟨k, h2⟩ =
          [.assistantToolCalls [cs.get ⟨k, h1⟩],
           .toolResult (cs.get ⟨k, h1⟩).name out (cs.get ⟨k, h1⟩).id]) ∧
    (∀ (model : Nat → List Msg → ChatResp) (explicit : List SchemaDict)
        (serverLookup : ServerLookup) (schemaRegistry : List (String × SchemaDict))
        (registry : Registry) (fuel idx : Nat) (r : Ref) (σ : List (List Msg))
        (parts : List (List Msg)),
      (model idx (getRef σ r)).toolCalls ≠ [] →
      guardHit explicit serverLookup schemaRegistry
        (model idx (getRef σ r)).toolCalls = false →
      gatherExcept
        (fun call => processToolCall call call.name call.arguments
          serverLookup registry) (model idx (getRef σ r)).toolCalls = .ok parts →
      chatLoopGo model explicit serverLookup schemaRegistry registry
          (fuel + 1) idx r σ =
        chatLoopGo model explicit serverLookup schemaRegistry registry
          fuel (idx + 1) r (extendRef σ r parts.flatten)) ∧
    (∀ (serverLookup : ServerLookup) (registry : Registry)
        (calls : List OutputItem) (results : List (Option String)),
      gatherExcept
        (fun call => executeTool call.name call.arguments serverLookup registry)
        calls = .ok results →
      (outputsOf calls results).length = calls.length ∧
      ∀ (k : Nat) (h1 : k < calls.length)
          (h2 : k < (outputsOf calls results).length) (h3 : k < results.length),
        (outputsOf calls results).get ⟨k, h2⟩ =
          .functionCallOutput (calls.get ⟨k, h1⟩).callId
            (dumpResult (results.get ⟨k, h3⟩))) := by
  refine ⟨?_, ?_, ?_⟩
  · intro serverLookup registry cs parts hg
    refine ⟨gatherExcept_length _ cs parts hg, ?_⟩
    intro k h1 h2
    have hk := gatherExcept_get _ cs parts hg k h1 h2
    exact processToolCall_ok_shape (cs.get ⟨k, h1⟩) (cs.get ⟨k, h1⟩).name
      (cs.get ⟨k, h1⟩).arguments serverLookup registry (parts.get ⟨k, h2⟩) hk
  · intro model explicit serverLookup schemaRegistry registry fuel idx r σ
      parts hne hguard hg
    have hne2 : (model idx (getRef σ r)).toolCalls.isEmpty = false := by
      simpa [List.isEmpty_iff] using hne
    rw [chatLoopGo_succ, hne2, hguard]
    simp [hg]
  · intro serverLookup registry calls results hg
    have hlen := gatherExcept_length _ calls results hg
    constructor
    · simp [outputsOf, hlen]
    · intro k h1 h2 h3
      unfold outputsOf
      simp only [List.get_eq_getElem, List.getElem_map, List.getElem_zip]

/-- Three tool calls in one batch, dispatched against the demo server. -/
def threeCalls : List ToolCall :=
  [{ id := some "i1", name := "t", arguments := [] },
   { id := some "i2", name := "t", arguments := [] },
   { id := some "i3", name := "t", arguments := [] }]

/-- Witness for C7: three concurrent requests come back with their blocks in
original request order and matching ids. -/
theorem C7_dispatch_order_preserved_witness :
    ∃ parts : List (List Msg),
      gatherExcept
        (fun call => processToolCall call call.name call.arguments
          [("t", demoServer)] []) threeCalls = .ok parts ∧
      parts.length = threeCalls.length ∧
      (∀ (k : Nat) (h1 : k < threeCalls.length) (h2 : k < parts.length),
        ∃ out, parts.get ⟨k, h2⟩ =
          [.assistantToolCalls [threeCalls.get ⟨k, h1⟩],
           .toolResult (threeCalls.get ⟨k, h1⟩).name out
             (threeCalls.get ⟨k, h1⟩).id]) := by
  refine ⟨[[.assistantToolCalls [threeCalls.get ⟨0, by decide⟩],
            .toolResult "t" "ok" (some "i1")],
           [.assistantToolCalls [threeCalls.get ⟨1, by decide⟩],
            .toolResult "t" "ok" (some "i2")],
           [.assistantToolCalls [threeCalls.get ⟨2, by decide⟩],
            .toolResult "t" "ok" (some "i3")]], rfl, ?_, ?_⟩
  · exact (C7_dispatch_order_preserved.1 [("t", demoServer)] [] threeCalls _ rfl).1
  · exact (C7_dispatch_order_preserved.1 [("t", demoServer)] [] threeCalls _ rfl).2

/-! ### Lemmas: history aliasing and frame -/

lemma chatLoopGo_frame (model : Nat → List Msg → ChatResp)
    (explicit : List SchemaDict) (serverLookup : ServerLookup)
    (schemaRegistry : List (String × SchemaDict)) (registry : Registry) :
    ∀ (fuel idx : Nat) (r : Ref) (σ : List (List Msg)) (out : ChatOutcome)
      (σ2 : List (List Msg)), r < σ.length →
      chatLoopGo model explicit serverLookup schemaRegistry registry
        fuel idx r σ = .ok (out, σ2) →
      (∃ extra, getRef σ2 r = getRef σ r ++ extra) ∧ σ2.length = σ.length := by
  intro fuel
  induction fuel with
  | zero =>
      intro idx r σ out σ2 hr h
      rw [chatLoopGo_zero] at h
      cases h
      exact ⟨⟨[], by simp⟩, rfl⟩
  | succ f ih =>
      intro idx r σ out σ2 hr h
      rw [chatLoopGo_succ] at h
      by_cases h1 : (model idx (getRef σ r)).toolCalls.isEmpty = true
      · rw [if_pos h1] at h
        cases h
        exact ⟨⟨[], by simp⟩, rfl⟩
      · rw [if_neg h1] at h
        by_cases h2 : guardHit explicit serverLookup schemaRegistry
            (model idx (getRef σ r)).toolCalls = true
        · rw [if_pos h2] at h
          cases h
          exact ⟨⟨[], by simp⟩, rfl⟩
        · rw [if_neg h2] at h
          rcases hg : gatherExcept
              (fun call => processToolCall call call.name call.arguments
                serverLookup registry)
              (model idx (getRef σ r)).toolCalls with e | parts
          · rw [hg] at h; cases h
          · rw [hg] at h
            dsimp only at h
            have hr2 : r < (extendRef σ r parts.flatten).length := by
              rw [length_extendRef]; exact hr
            obtain ⟨⟨extra, hextra⟩, hlen⟩ :=
              ih (idx + 1) r (extendRef σ r parts.flatten) out σ2 hr2 h
            refine ⟨⟨parts.flatten ++ extra, ?_⟩, ?_⟩
            · rw [hextra, getRef_extendRef_self _ _ _ hr, List.append_assoc]
            · rw [hlen, length_extendRef]

/-- C10: the Chat Loop Driver works on the caller's own message list — every
dispatched round extends that very cell in place, so on return the caller's
list is its original content followed by the appended entries (and no cell
was reallocated); the Response Follow-up Driver copies the caller's input
list before appending, so the caller's cell is unchanged on return. -/
theorem C10_history_mutation_vs_copy :
    (∀ (model : Nat → List Msg → ChatResp) (explicit : List SchemaDict)
        (serverLookup : ServerLookup) (schemaRegistry : List (String × SchemaDict))
        (registry : Registry) (payloadRef : Ref) (σ : List (List Msg))
        (out : ChatOutcome) (σ2 : List (List Msg)),
      payloadRef < σ.length →
      chatDriver model explicit serverLookup schemaRegistry registry
        payloadRef σ = .ok (out, σ2) →
      (∃ extra, getRef σ2 payloadRef = getRef σ payloadRef ++ extra) ∧
      σ2.length = σ.length) ∧
    (∀ (backend : Nat → List RItem → Option String → RResp)
        (serverLookup : ServerLookup) (registry : Registry)
        (payloadRef : Ref) (σ : List (List RItem)) (o : RespOutcome)
        (σ2 : List (List RItem)),
      payloadRef < σ.length →
      responsesDriver backend serverLookup registry payloadRef σ = .ok (o, σ2) →
      getRef σ2 payloadRef = getRef σ payloadRef) := by
  constructor
  · intro model explicit serverLookup schemaRegistry registry payloadRef σ
      out σ2 hr h
    exact chatLoopGo_frame model explicit serverLookup schemaRegistry registry
      (MAX_TOOL_LOOPS - 1) 0 payloadRef σ out σ2 hr h
  · intro backend serverLookup registry payloadRef σ o σ2 hr h
    unfold responsesDriver at h
    dsimp only [allocRef] at h
    have hne : σ.length ≠ payloadRef := Nat.ne_of_gt hr
    by_cases hc : ((backend 0 (getRef (σ ++ [getRef σ payloadRef]) σ.length) none).output.filter
        (fun obj => obj.type == "function_call")).isEmpty = true
    · rw [if_pos hc] at h
      cases h
      exact getRef_append_left σ _ payloadRef hr
    · rw [if_neg hc] at h
      rcases hg : gatherExcept
          (fun call => executeTool call.name call.arguments serverLookup registry)
          ((backend 0 (getRef (σ ++ [getRef σ payloadRef]) σ.length) none).output.filter
            (fun obj => obj.type == "function_call")) with e | results
      · rw [hg] at h; cases h
      · rw [hg] at h
        dsimp only at h
        cases h
        rw [getRef_extendRef_ne _ _ _ _ hne]
        exact getRef_append_left σ _ payloadRef hr

/-- A backend that never requests a function call. -/
def noCallBackend : Nat → List RItem → Option String → RResp :=
  fun _ _ _ => { rid := "nr", output := [] }

/-- Witness for C10 at concrete runs of both drivers. -/
theorem C10_history_mutation_vs_copy_witness :
    ((∃ extra, getRef [[]] 0 = getRef ([[]] : List (List Msg)) 0 ++ extra) ∧
      ([[]] : List (List Msg)).length = ([[]] : List (List Msg)).length) ∧
    getRef ([[], []] : List (List RItem)) 0 = getRef ([[]] : List (List RItem)) 0 :=
  ⟨C10_history_mutation_vs_copy.1 noToolModel [] [] [] [] 0 [[]]
      ⟨noToolModel 0 (getRef [[]] 0), false, 1⟩ [[]] (by decide) rfl,
   C10_history_mutation_vs_copy.2 noCallBackend [] [] 0 [[]]
      ⟨noCallBackend 0 (getRef [[]] 0) none, 1⟩ [[], []] (by decide) rfl⟩

end Agentd
